import Mathlib

/-!
Shallow embedding of the authentication / command-execution core of the
AzureCommander repository (src/services/azure-cli.service.ts and
src/services/auth.service.ts), together with theorems settling the
specification claims about it.

The external process boundary is modelled by a `CliWorld`: a pure map from
command lines to subprocess outcomes, plus a pure JSON parser and the string
produced by the interactive `ensureConfiguredUsername` fallback.  Every
service operation is translated to a pure Lean function over a `CliWorld`
(and, for the stateful `AuthenticationService`, an explicit `AuthState`);
each operation also returns the ordered list of command lines it spawned, so
that claims about process-spawn counts can be stated.
-/

set_option autoImplicit false

namespace AzureCommander

/-- A JavaScript runtime value, as needed to model the dynamically typed
results that flow out of `JSON.parse` in the services. -/
inductive JSValue where
  | null
  | undefined
  | str (s : String)
  | num (n : Int)
  | bool (b : Bool)
  | arr (elems : List JSValue)
  | obj (fields : List (String × JSValue))

/-- JavaScript truthiness of a value (empty string, zero, `false`, `null`
and `undefined` are falsy; every object and array is truthy). -/
def truthy : JSValue → Bool
  | .null => false
  | .undefined => false
  | .str s => s != ""
  | .num n => n != 0
  | .bool b => b
  | .arr _ => true
  | .obj _ => true

/-- Whether `typeof v` is the string `"object"` in JavaScript
(`null`, arrays and plain objects all qualify). -/
def isObjectType : JSValue → Bool
  | .null => true
  | .arr _ => true
  | .obj _ => true
  | _ => false

/-- Property access `v[name]` for the guarded uses in the source: on a plain
object it is the first binding of that name, on anything else (the code only
reaches this after a truthiness and `typeof` object guard) it is
`undefined`. -/
def getField : JSValue → String → JSValue
  | .obj fields, name =>
      match fields.find? (fun f => f.1 == name) with
      | some f => f.2
      | none => .undefined
  | _, _ => .undefined

/-- The JavaScript `String(v)` coercion. -/
def jsToString : JSValue → String
  | .null => "null"
  | .undefined => "undefined"
  | .str s => s
  | .num n => toString n
  | .bool b => if b then "true" else "false"
  | .arr _ => ""
  | .obj _ => "[object Object]"

/-- The JavaScript `a || b` operator on values. -/
def jsOrV (a b : JSValue) : JSValue := if truthy a then a else b

/-- The JavaScript `a || b` operator on strings. -/
def jsOr (a b : String) : String := if a = "" then b else a

/-- `o.getD ""`: reading a possibly-undefined string property, with the JS
convention that an absent property behaves like the falsy empty string once
fed into `jsOr`. -/
def optStr (o : Option String) : String := o.getD ""

/-- Whitespace for the JavaScript `String.prototype.trim` (the ASCII cases,
which are the only ones these services meet). -/
def isWSChar (c : Char) : Bool :=
  c = ' ' || c = '\t' || c = '\n' || c = '\r' || c = '\x0b' || c = '\x0c'

/-- The JavaScript `s.trim()`: strip leading and trailing whitespace. -/
def jsTrim (s : String) : String :=
  ⟨((s.data.dropWhile isWSChar).reverse.dropWhile isWSChar).reverse⟩

/-- Whether the first character list is a prefix of the second. -/
def leadsWith : List Char → List Char → Bool
  | [], _ => true
  | _ :: _, [] => false
  | a :: as, b :: bs => a == b && leadsWith as bs

/-- Whether the needle occurs as a contiguous run inside the haystack. -/
def occursIn (needle : List Char) : List Char → Bool
  | [] => leadsWith needle []
  | c :: rest => leadsWith needle (c :: rest) || occursIn needle rest

/-- The JavaScript `s.includes(sub)`. -/
def jsIncludes (s sub : String) : Bool := occursIn sub.data s.data

/-- Fuelled worker for a global, left-to-right, non-overlapping string
replacement; the fuel is an upper bound on the length of the remaining
haystack, so with a non-empty needle it never runs out. -/
def jsReplaceAux (needle repl : List Char) : Nat → List Char → List Char
  | 0, hay => hay
  | _ + 1, [] => []
  | fuel + 1, c :: rest =>
    if needle.length != 0 && leadsWith needle (c :: rest) then
      repl ++ jsReplaceAux needle repl fuel (List.drop needle.length (c :: rest))
    else c :: jsReplaceAux needle repl fuel rest

/-- The JavaScript `s.replace(/pattern/g, repl)` for a literal pattern:
replace every (non-overlapping, leftmost-first) occurrence. -/
def jsReplace (s pattern repl : String) : String :=
  ⟨jsReplaceAux pattern.data repl.data s.data.length s.data⟩

/-- Successful outcome of one subprocess invocation: the destructured
`{ stdout, stderr }` pair. -/
structure ExecSuccess where
  stdout : String
  stderr : String
deriving DecidableEq

/-- The error object a rejected `execAsync` promise carries: its `message`,
its optional `stderr` property and its optional numeric exit `code`. -/
structure ExecError where
  message : String
  stderr : Option String
  code : Option Int
deriving DecidableEq

/-- One deterministic behaviour of the process boundary.  `exec` scripts the
outcome of every command line; `jsonParse` scripts `JSON.parse` (errors are
the message of the thrown `SyntaxError`); `username` is the string produced
by `ensureConfiguredUsername` (config-file lookup, interactive prompt, or
the literal `"@me"` fallback of its catch-all handler — that method performs
file and terminal I/O but spawns no subprocess and never throws, so a plain
string is a faithful abstraction for the claims at hand). -/
structure CliWorld where
  exec : String → Except ExecError ExecSuccess
  jsonParse : String → Except String JSValue
  username : String

def versionCmd : String := "az --version"

def accountShowCmd : String := "az account show"

def extensionListCmd : String := "az extension list --output json"

def getAccessTokenCmd : String :=
  "az account get-access-token --resource 499b84ac-1321-427f-aa17-267ca6975798 --query accessToken --output tsv"

def accountShowJsonCmd : String := "az account show --output json"

def resolveMePhrase : String := "Could not resolve identity: @me"

/-- The closed taxonomy of errors the `AzureCliService` can throw, plus the
two untyped error shapes that can arise inside its try blocks (a rejected
`execAsync` promise and a `JSON.parse` syntax error). -/
inductive AzError where
  | notInstalled
  | notAuthenticated
  | extensionNotInstalled
  | notConfigured
  | cliExecution (message : String) (stderr : String) (exitCode : Option Int)
  | rawExec (e : ExecError)
  | jsonFail (message : String)
deriving DecidableEq

/-- The `message` property of each error object, with the fixed remediation
texts of the typed error classes. -/
def AzError.message : AzError → String
  | .notInstalled => "Azure CLI is not installed. Install from: https://aka.ms/install-azure-cli"
  | .notAuthenticated => "Not authenticated with Azure CLI. Run: az login"
  | .extensionNotInstalled =>
      "Azure DevOps extension not installed. Run: az extension add --name azure-devops"
  | .notConfigured =>
      "Azure DevOps organization not configured. Run: az devops configure --defaults organization=https://dev.azure.com/YOUR_ORG"
  | .cliExecution m _ _ => m
  | .rawExec e => e.message
  | .jsonFail m => m

/-- The `stderr` property of each error object (`AzureCliExecutionError`
and rejected exec promises have one; the other error classes do not). -/
def AzError.stderrProp : AzError → Option String
  | .cliExecution _ s _ => some s
  | .rawExec e => e.stderr
  | _ => none

/-- The `code` property of each error object (only the raw exec error has
one; `AzureCliExecutionError` stores its exit code under `exitCode`). -/
def AzError.codeProp : AzError → Option Int
  | .rawExec e => e.code
  | _ => none

/-- `isKnownError`: whether the error is one of the typed classes of the
service (everything except a raw exec rejection or a parse error). -/
def isKnownError : AzError → Bool
  | .rawExec _ => false
  | .jsonFail _ => false
  | _ => true

/-- `error.stderr || error.message || ''` as computed at the top of the
catch block of `executeAzCommand`. -/
def catchStderr (e : AzError) : String := jsOr (optStr e.stderrProp) e.message

def execOk (r : Except ExecError ExecSuccess) : Bool :=
  match r with
  | .ok _ => true
  | .error _ => false

/-- `isInstalled`: `az --version` inside a try that maps success to `true`
and any rejection to `false`. -/
def isInstalled (w : CliWorld) : Bool := execOk (w.exec versionCmd)

/-- `isAuthenticated`: `az account show` with the same try/catch shape. -/
def isAuthenticated (w : CliWorld) : Bool := execOk (w.exec accountShowCmd)

/-- The strict equality test of the extension name against the literal
azure-devops (only a string can match). -/
def isAzureDevOpsExt (ext : JSValue) : Bool :=
  match getField ext "name" with
  | .str s => s == "azure-devops"
  | _ => false

/-- `hasDevOpsExtension`: list the extensions, parse the output as JSON and
look for the devops extension by name; any failure (rejection, parse error,
or a non-array on which `.some` is not a function) yields `false`. -/
def hasDevOpsExtension (w : CliWorld) : Bool :=
  match w.exec extensionListCmd with
  | .error _ => false
  | .ok r =>
    match w.jsonParse r.stdout with
    | .error _ => false
    | .ok (.arr exts) => exts.any isAzureDevOpsExt
    | .ok _ => false

/-- `isDevOpsCommand`: substring test against the two restricted command
family markers. -/
def isDevOpsCommand (command : String) : Bool :=
  jsIncludes command "az repos" || jsIncludes command "az devops"

def isOrganizationNotConfiguredError (stderr : String) : Bool :=
  jsIncludes stderr "organization" && jsIncludes stderr "not configured"

def isResourceNotFoundError (stderr : String) : Bool :=
  jsIncludes stderr "not found" || jsIncludes stderr "does not exist"

/-- `handleStderrErrors`: the error it throws, if any, on a given stderr
text of a resolved execution. -/
def handleStderrErrors (stderr : String) : Option AzError :=
  if stderr = "" then none
  else if isOrganizationNotConfiguredError stderr then some .notConfigured
  else if isResourceNotFoundError stderr then
    some (.cliExecution "Resource not found" stderr none)
  else none

/-- `parseJsonResponse`: parse non-blank stdout as JSON, and map blank or
whitespace-only stdout to the empty object. -/
def parseJsonResponse (w : CliWorld) (stdout : String) : Except AzError JSValue :=
  if jsTrim stdout != "" then
    match w.jsonParse stdout with
    | .ok v => .ok v
    | .error m => .error (.jsonFail m)
  else .ok (.obj [])

/-- `handleExecutionError`: rethrow known typed errors, wrap everything
else as an `AzureCliExecutionError`. -/
def handleExecutionError (e : AzError) : AzError :=
  if isKnownError e then e
  else
    .cliExecution ("Azure CLI command failed: " ++ e.message)
      (jsOr (jsOr (optStr e.stderrProp) e.message) "Unknown error")
      e.codeProp

/-- The body of the try block of `executeAzCommand` for one command line:
run it, inspect stderr, parse stdout. -/
def runAttempt (w : CliWorld) (command : String) : Except AzError JSValue :=
  match w.exec command with
  | .error e => .error (.rawExec e)
  | .ok r =>
    match handleStderrErrors r.stderr with
    | some err => .error err
    | none => parseJsonResponse w r.stdout

/-- The try/catch core of `executeAzCommand` (after the three validation
probes): first attempt, then — only when the caught stderr mentions the
unresolved `@me` identity — one re-execution with `@me` globally replaced
by the configured username.  Returns the command lines spawned here and the
outcome. -/
def executeAzCommandCore (w : CliWorld) (command : String) :
    List String × Except AzError JSValue :=
  match runAttempt w command with
  | .ok v => ([command], .ok v)
  | .error err =>
    if jsIncludes (catchStderr err) resolveMePhrase then
      let newCommand := jsReplace command "@me" w.username
      match runAttempt w newCommand with
      | .ok v => ([command, newCommand], .ok v)
      | .error err2 => ([command, newCommand], .error (handleExecutionError err2))
    else ([command], .error (handleExecutionError err))

/-- `executeAzCommand`: validate installation, authentication and (for the
restricted command family) the extension, then run the command through the
try/catch core.  The first component lists every spawned command line in
order. -/
def executeAzCommand (w : CliWorld) (command : String) :
    List String × Except AzError JSValue :=
  if !isInstalled w then ([versionCmd], .error .notInstalled)
  else if !isAuthenticated w then ([versionCmd, accountShowCmd], .error .notAuthenticated)
  else if isDevOpsCommand command && !hasDevOpsExtension w then
    ([versionCmd, accountShowCmd, extensionListCmd], .error .extensionNotInstalled)
  else
    let preTrace :=
      if isDevOpsCommand command then [versionCmd, accountShowCmd, extensionListCmd]
      else [versionCmd, accountShowCmd]
    let run := executeAzCommandCore w command
    (preTrace ++ run.1, run.2)

/-- `getAzureDevOpsAccessToken`: run the fixed token command and trim its
stdout; on rejection, re-probe install and auth state to pick the root
cause error, falling back to a generic execution error that carries the
original stderr or message. -/
def getAzureDevOpsAccessToken (w : CliWorld) : List String × Except AzError String :=
  match w.exec getAccessTokenCmd with
  | .ok r => ([getAccessTokenCmd], .ok (jsTrim r.stdout))
  | .error e =>
    if !isInstalled w then ([getAccessTokenCmd, versionCmd], .error .notInstalled)
    else if !isAuthenticated w then
      ([getAccessTokenCmd, versionCmd, accountShowCmd], .error .notAuthenticated)
    else
      ([getAccessTokenCmd, versionCmd, accountShowCmd],
        .error (.cliExecution "Failed to get access token" (jsOr (optStr e.stderr) e.message) none))

/-- The `AzureSubscriptionInfo` record of the authentication service. -/
structure AzureSubscriptionInfo where
  id : String
  name : String
  tenantId : String
  state : String
deriving DecidableEq

/-- The two private cache slots of an `AuthenticationService` instance. -/
structure AuthState where
  cachedToken : Option String
  cachedSubscription : Option AzureSubscriptionInfo
deriving DecidableEq

def patEnvVar : String := "AZURE_DEVOPS_EXT_PAT"

def tokenEnvVar : String := "AZ_ACCESS_TOKEN"

def tokenFailureMessage : String :=
  "Failed to retrieve access token. Make sure one of the following is available: AZURE_DEVOPS_EXT_PAT, AZ_ACCESS_TOKEN, or Azure CLI login."

/-- The `cause` attached to the error `getAccessToken` throws: either the
error raised by the CLI token command, or the locally thrown
`Error("Empty token from Azure CLI")`. -/
inductive TokenFailureCause where
  | cli (e : AzError)
  | emptyToken
deriving DecidableEq

/-- The error object thrown by `getAccessToken` when every credential
source is exhausted: a fixed descriptive message plus the original error as
its `cause`. -/
structure TokenResolutionError where
  message : String
  cause : TokenFailureCause
deriving DecidableEq

/-- `getEnvVar`: read a process environment variable, treat an unset or
empty value as absent, trim, and treat a whitespace-only value as absent
too. -/
def getEnvVar (env : String → Option String) (name : String) : Option String :=
  match env name with
  | none => none
  | some v =>
    if v = "" then none
    else if jsTrim v = "" then none else some (jsTrim v)

/-- The truthiness test `if (this.cachedToken)` that guards the cache-hit
fast path (an empty cached string would not count as a hit). -/
def tokenCacheHit (s : AuthState) : Bool :=
  match s.cachedToken with
  | some t => t != ""
  | none => false

/-- `getAccessToken`: cached token, else primary env var, else secondary
env var, else the CLI token command (rejecting a blank token), wrapping any
failure of that last source in a `TokenResolutionError`.  Returns the
spawned command lines, the updated cache state and the outcome. -/
def getAccessToken (w : CliWorld) (env : String → Option String) (s : AuthState) :
    List String × AuthState × Except TokenResolutionError String :=
  if tokenCacheHit s then ([], s, .ok (optStr s.cachedToken))
  else
    match getEnvVar env patEnvVar with
    | some pat => ([], ⟨some pat, s.cachedSubscription⟩, .ok pat)
    | none =>
      match getEnvVar env tokenEnvVar with
      | some envToken => ([], ⟨some envToken, s.cachedSubscription⟩, .ok envToken)
      | none =>
        match getAzureDevOpsAccessToken w with
        | (tr, .ok token) =>
          if token = "" ∨ jsTrim token = "" then
            (tr, s, .error ⟨tokenFailureMessage, .emptyToken⟩)
          else
            (tr, ⟨some (jsTrim token), s.cachedSubscription⟩, .ok (jsTrim token))
        | (tr, .error e) => (tr, s, .error ⟨tokenFailureMessage, .cli e⟩)

/-- The field extraction and coercion applied to the structured result of
`az account show --output json`: reject a falsy or non-object result,
reject a result with a falsy `id` or a falsy `name`, let `tenantId` fall
back to `homeTenantId` (and then to the empty string), default `state` to
`"Unknown"`, and coerce all four fields with `String(...)`. -/
def mapSubscription (result : JSValue) : Option AzureSubscriptionInfo :=
  if !(truthy result && isObjectType result) then none
  else
    let id := getField result "id"
    let nm := getField result "name"
    let tenantId := jsOrV (getField result "tenantId") (getField result "homeTenantId")
    let state := jsOrV (getField result "state") (.str "Unknown")
    if !truthy id || !truthy nm then none
    else
      some ⟨jsToString id, jsToString nm, jsToString (jsOrV tenantId (.str "")),
        jsToString state⟩

/-- The try-block body of `getSubscriptionInfo`: probe installation and
authentication (each a subprocess call), run the structured account-show
command (which may throw), and map its result. -/
def getSubscriptionInfoBody (w : CliWorld) :
    List String × Except AzError (Option AzureSubscriptionInfo) :=
  if !isInstalled w then ([versionCmd], .ok none)
  else if !isAuthenticated w then ([versionCmd, accountShowCmd], .ok none)
  else
    match executeAzCommand w accountShowJsonCmd with
    | (tr, .error e) => ([versionCmd, accountShowCmd] ++ tr, .error e)
    | (tr, .ok result) => ([versionCmd, accountShowCmd] ++ tr, .ok (mapSubscription result))

/-- `getSubscriptionInfo`: cached value if present, else the try block
above with a catch-all that converts every thrown error into the absent
result.  The returned `Option` (never an exception) is the operation being
total. -/
def getSubscriptionInfo (w : CliWorld) (s : AuthState) :
    List String × AuthState × Option AzureSubscriptionInfo :=
  match s.cachedSubscription with
  | some info => ([], s, some info)
  | none =>
    match getSubscriptionInfoBody w with
    | (tr, .ok (some info)) => (tr, ⟨s.cachedToken, some info⟩, some info)
    | (tr, .ok none) => (tr, s, none)
    | (tr, .error _) => (tr, s, none)

/-- `clearCache`: discard both cache slots. -/
def clearCache (_ : AuthState) : AuthState := ⟨none, none⟩

/-! ### Helper lemmas about trimming -/

theorem head_dropWhile_false {α : Type} (p : α → Bool) (l : List α) (a : α)
    (h : (l.dropWhile p).head? = some a) : p a = false := by
  induction l with
  | nil => simp [List.dropWhile] at h
  | cons x l ih =>
    rw [List.dropWhile_cons] at h
    by_cases hx : p x = true
    · rw [if_pos hx] at h; exact ih h
    · rw [if_neg hx] at h
      simp only [List.head?_cons, Option.some.injEq] at h
      subst h
      exact Bool.eq_false_iff.mpr hx

theorem getLast?_dropWhile {α : Type} (p : α → Bool) (l : List α)
    (h : l.dropWhile p ≠ []) : (l.dropWhile p).getLast? = l.getLast? := by
  induction l with
  | nil => simp at h
  | cons x l ih =>
    rw [List.dropWhile_cons] at h ⊢
    by_cases hx : p x = true
    · rw [if_pos hx] at h ⊢
      rw [ih h]
      cases l with
      | nil => simp [List.dropWhile] at h
      | cons y t => rw [List.getLast?_cons_cons]
    · rw [if_neg hx] at h ⊢

/-- The first character of a trimmed string is not whitespace. -/
theorem jsTrim_head_not_ws (s : String) (a : Char)
    (h : (jsTrim s).data.head? = some a) : isWSChar a = false := by
  unfold jsTrim at h
  rw [List.head?_reverse] at h
  have hne : (s.data.dropWhile isWSChar).reverse.dropWhile isWSChar ≠ [] := by
    intro h0
    rw [h0] at h
    cases h
  rw [getLast?_dropWhile isWSChar _ hne, List.getLast?_reverse] at h
  exact head_dropWhile_false isWSChar _ a h

/-- The last character of a trimmed string is not whitespace. -/
theorem jsTrim_last_not_ws (s : String) (a : Char)
    (h : (jsTrim s).data.getLast? = some a) : isWSChar a = false := by
  unfold jsTrim at h
  rw [List.getLast?_reverse] at h
  exact head_dropWhile_false isWSChar _ a h

/-- A non-empty token with no leading and no trailing whitespace. -/
def trimmedToken (t : String) : Prop :=
  t ≠ "" ∧ (∀ a, t.data.head? = some a → isWSChar a = false)
    ∧ (∀ a, t.data.getLast? = some a → isWSChar a = false)

theorem jsTrim_trimmedToken (v : String) (h : jsTrim v ≠ "") : trimmedToken (jsTrim v) :=
  ⟨h, fun a ha => jsTrim_head_not_ws v a ha, fun a ha => jsTrim_last_not_ws v a ha⟩

/-- The token-cache invariant of the credential resolver: a populated slot
always holds a non-empty, fully trimmed token. -/
def tokenCacheInv (s : AuthState) : Prop :=
  ∀ t, s.cachedToken = some t → trimmedToken t

/-- A defined value of `getEnvVar` is the trimming of the raw environment
value and is non-empty. -/
theorem getEnvVar_some (env : String → Option String) (name t : String)
    (h : getEnvVar env name = some t) :
    ∃ v, env name = some v ∧ t = jsTrim v ∧ t ≠ "" := by
  unfold getEnvVar at h
  split at h
  · cases h
  · rename_i v he
    by_cases hv : v = ""
    · rw [if_pos hv] at h; cases h
    · rw [if_neg hv] at h
      by_cases ht : jsTrim v = ""
      · rw [if_pos ht] at h; cases h
      · rw [if_neg ht] at h
        cases h
        exact ⟨v, he, rfl, ht⟩

/-! ### Concrete worlds and environments used by witnesses -/

/-- A world where every probe succeeds, the token command returns a padded
token, and both structured commands return parseable JSON. -/
def execGood : String → Except ExecError ExecSuccess := fun c =>
  if c = versionCmd then .ok ⟨"azure-cli 2.64.0", ""⟩
  else if c = accountShowCmd then .ok ⟨"account-ok", ""⟩
  else if c = extensionListCmd then .ok ⟨"ext-json", ""⟩
  else if c = getAccessTokenCmd then .ok ⟨"  tok123  ", ""⟩
  else if c = accountShowJsonCmd then .ok ⟨"acct-json", ""⟩
  else .error ⟨"unknown command", none, some 1⟩

/-- The structured value behind `acct-json` in the good world. -/
def acctResult : JSValue :=
  .obj [("id", .str "sub-1"), ("name", .str "My Sub"),
    ("homeTenantId", .str "ten-9"), ("state", .str "Enabled")]

def parseGood : String → Except String JSValue := fun s =>
  if s = "ext-json" then .ok (.arr [.obj [("name", .str "azure-devops")]])
  else if s = "acct-json" then .ok acctResult
  else .error "Unexpected token"

def wGood : CliWorld := ⟨execGood, parseGood, "bob"⟩

/-- A world where the main command resolves successfully but with an
organization-not-configured complaint on stderr. -/
def wOrgStderr : CliWorld :=
  ⟨fun c =>
    if c = versionCmd then .ok ⟨"azure-cli 2.64.0", ""⟩
    else if c = accountShowCmd then .ok ⟨"account-ok", ""⟩
    else .ok ⟨"", "ERROR: organization is not configured"⟩,
   fun _ => .error "Unexpected token", "bob"⟩

/-- A world where the main command rejects (non-zero exit) with the same
organization-not-configured stderr. -/
def wOrgReject : CliWorld :=
  ⟨fun c =>
    if c = versionCmd then .ok ⟨"azure-cli 2.64.0", ""⟩
    else if c = accountShowCmd then .ok ⟨"account-ok", ""⟩
    else .error ⟨"Command failed with exit code 1",
      some "ERROR: organization is not configured", some 1⟩,
   fun _ => .error "Unexpected token", "bob"⟩

def orgCmd : String := "az boards list"

/-- A world where the main command rejects because the CLI could not
resolve the `@me` identity, and the username fallback also yields the
literal `@me` (the catch-all branch of `ensureConfiguredUsername`). -/
def wMeRetry : CliWorld :=
  ⟨fun c =>
    if c = versionCmd then .ok ⟨"azure-cli 2.64.0", ""⟩
    else if c = accountShowCmd then .ok ⟨"account-ok", ""⟩
    else .error ⟨"Command failed", some "ERROR: Could not resolve identity: @me", some 1⟩,
   fun _ => .error "Unexpected token", "@me"⟩

def meCmd : String := "az boards list --assignee @me"

/-- A world where the token command rejects while both probes still
succeed. -/
def wTokenFail : CliWorld :=
  ⟨fun c =>
    if c = versionCmd then .ok ⟨"azure-cli 2.64.0", ""⟩
    else if c = accountShowCmd then .ok ⟨"account-ok", ""⟩
    else .error ⟨"exec failure", some "token stderr", some 1⟩,
   fun _ => .error "Unexpected token", "bob"⟩

/-- A world where the main command resolves with whitespace-only stdout and
a clean stderr. -/
def wBlankStdout : CliWorld :=
  ⟨fun c =>
    if c = versionCmd then .ok ⟨"azure-cli 2.64.0", ""⟩
    else if c = accountShowCmd then .ok ⟨"account-ok", ""⟩
    else .ok ⟨"   \n  ", ""⟩,
   fun _ => .error "Unexpected token", "bob"⟩

/-- A world where nothing is installed: every subprocess rejects. -/
def wNotInstalled : CliWorld :=
  ⟨fun _ => .error ⟨"command not found: az", none, some 127⟩,
   fun _ => .error "Unexpected token", "bob"⟩

def envEmpty : String → Option String := fun _ => none

def envPat : String → Option String := fun n =>
  if n = patEnvVar then some "  secret-token  " else none

def s0 : AuthState := ⟨none, none⟩

/-! ### Shared helper lemmas about the command executor -/

/-- Once the three validation probes pass, `executeAzCommand` is the
try/catch core prefixed by the probe spawns. -/
theorem executeAzCommand_validated (w : CliWorld) (command : String)
    (hInst : isInstalled w = true) (hAuth : isAuthenticated w = true)
    (hExt : isDevOpsCommand command = true → hasDevOpsExtension w = true) :
    executeAzCommand w command =
      ((if isDevOpsCommand command then [versionCmd, accountShowCmd, extensionListCmd]
        else [versionCmd, accountShowCmd]) ++ (executeAzCommandCore w command).1,
       (executeAzCommandCore w command).2) := by
  by_cases hDev : isDevOpsCommand command = true
  · simp [executeAzCommand, hInst, hAuth, hDev, hExt hDev]
  · have hDev2 : isDevOpsCommand command = false := by
      exact Bool.eq_false_iff.mpr hDev
    simp [executeAzCommand, hInst, hAuth, hDev2]

/-- A successful first attempt short-circuits the try/catch core. -/
theorem core_of_ok (w : CliWorld) (command : String) (v : JSValue)
    (h : runAttempt w command = .ok v) :
    executeAzCommandCore w command = ([command], .ok v) := by
  simp [executeAzCommandCore, h]

/-- A failed first attempt whose caught stderr does not mention the
unresolved `@me` identity is wrapped by `handleExecutionError`, with no
second spawn. -/
theorem core_of_error_no_me (w : CliWorld) (command : String) (err : AzError)
    (hAtt : runAttempt w command = .error err)
    (hMe : jsIncludes (catchStderr err) resolveMePhrase = false) :
    executeAzCommandCore w command = ([command], .error (handleExecutionError err)) := by
  simp [executeAzCommandCore, hAtt, hMe]

/-! ### C1 -/

/-- C1 (amended): when the executed subprocess resolves successfully and its
stderr contains both the substrings "organization" and "not configured",
`executeAzCommand` fails with the `NotConfigured` typed error.  (When the
subprocess rejects, the stderr pattern check is not applied and the failure
is wrapped as a generic execution error instead; see the counterexample.) -/
theorem notConfigured_on_resolved_stderr (w : CliWorld) (command : String)
    (r : ExecSuccess)
    (hInst : isInstalled w = true) (hAuth : isAuthenticated w = true)
    (hExt : isDevOpsCommand command = true → hasDevOpsExtension w = true)
    (hExec : w.exec command = .ok r)
    (hOrg : isOrganizationNotConfiguredError r.stderr = true) :
    (executeAzCommand w command).2 = .error .notConfigured := by
  have hne : r.stderr ≠ "" := by
    intro h0
    rw [h0] at hOrg
    exact absurd hOrg (by decide)
  have hse : handleStderrErrors r.stderr = some .notConfigured := by
    unfold handleStderrErrors
    rw [if_neg hne, if_pos hOrg]
  have hAtt : runAttempt w command = .error .notConfigured := by
    simp [runAttempt, hExec, hse]
  have hCore := core_of_error_no_me w command .notConfigured hAtt (by decide)
  rw [executeAzCommand_validated w command hInst hAuth hExt, hCore]
  rfl

/-- C1 witness: a concrete world where the command resolves with exit
success and the organization-not-configured stderr, and the typed
`NotConfigured` error is raised. -/
theorem notConfigured_on_resolved_stderr_witness :
    (executeAzCommand wOrgStderr orgCmd).2 = .error .notConfigured :=
  notConfigured_on_resolved_stderr wOrgStderr orgCmd
    ⟨"", "ERROR: organization is not configured"⟩
    (by decide) (by decide) (by decide) rfl (by decide)

/-- C1 counterexample: in a concrete world where the subprocess rejects with
a non-zero exit and the very same organization-not-configured stderr, the
run fails with a generic wrapped execution error, not with `NotConfigured` —
so the claim does not hold "regardless of the exit code". -/
theorem notConfigured_reject_cex :
    isOrganizationNotConfiguredError "ERROR: organization is not configured" = true
    ∧ (executeAzCommand wOrgReject orgCmd).2 =
        .error (.cliExecution "Azure CLI command failed: Command failed with exit code 1"
          "ERROR: organization is not configured" (some 1))
    ∧ (executeAzCommand wOrgReject orgCmd).2 ≠ .error .notConfigured := by
  refine ⟨by decide, rfl, fun h => ?_⟩
  exact AzError.noConfusion (Except.error.inj h)

/-! ### C2 -/

/-- A failed first attempt whose caught stderr does mention the unresolved
`@me` identity leads to exactly one re-execution of the command line with
`@me` replaced by the configured username. -/
theorem core_of_error_me (w : CliWorld) (command : String) (err : AzError)
    (hAtt : runAttempt w command = .error err)
    (hMe : jsIncludes (catchStderr err) resolveMePhrase = true) :
    (executeAzCommandCore w command).1
      = [command, jsReplace command "@me" w.username] := by
  simp only [executeAzCommandCore, hAtt, hMe, if_true]
  cases h2 : runAttempt w (jsReplace command "@me" w.username) <;> simp [h2]

/-- The token operation spawns the token command first and then at most the
two probe commands. -/
theorem getToken_trace (w : CliWorld) :
    (getAzureDevOpsAccessToken w).1 = [getAccessTokenCmd]
    ∨ (getAzureDevOpsAccessToken w).1 = [getAccessTokenCmd, versionCmd]
    ∨ (getAzureDevOpsAccessToken w).1 = [getAccessTokenCmd, versionCmd, accountShowCmd] := by
  unfold getAzureDevOpsAccessToken
  cases hTok : w.exec getAccessTokenCmd with
  | ok r => exact Or.inl rfl
  | error e =>
    by_cases hI : isInstalled w = true
    · by_cases hA : isAuthenticated w = true
      · simp [hI, hA]
      · simp [hI, Bool.eq_false_iff.mpr hA]
    · simp [Bool.eq_false_iff.mpr hI]

/-- C2 (amended): the try/catch core of `executeAzCommand` spawns the main
command line exactly once — except when the caught stderr (or message) of
the failed attempt contains "Could not resolve identity: @me", in which case
it spawns exactly one more process, running the command with `@me` replaced
by the configured username (which is the identical command line again when
the username fallback yields the literal `@me`).  `getToken` spawns the
token command exactly once and at most two probe processes, and never
re-runs the token command. -/
theorem spawn_discipline (w : CliWorld) (command : String) :
    ((executeAzCommandCore w command).1 = [command]
      ∨ ∃ e, runAttempt w command = .error e
          ∧ jsIncludes (catchStderr e) resolveMePhrase = true
          ∧ (executeAzCommandCore w command).1
              = [command, jsReplace command "@me" w.username])
    ∧ (getAzureDevOpsAccessToken w).1.count getAccessTokenCmd = 1
    ∧ (getAzureDevOpsAccessToken w).1.length ≤ 3 := by
  refine ⟨?_, ?_⟩
  · cases hAtt : runAttempt w command with
    | ok v => exact Or.inl (by rw [core_of_ok w command v hAtt])
    | error e =>
      by_cases hMe : jsIncludes (catchStderr e) resolveMePhrase = true
      · exact Or.inr ⟨e, rfl, hMe, core_of_error_me w command e hAtt hMe⟩
      · refine Or.inl ?_
        rw [core_of_error_no_me w command e hAtt (Bool.eq_false_iff.mpr hMe)]
  · rcases getToken_trace w with h | h | h <;> rw [h] <;> exact ⟨by decide, by decide⟩

/-- C2 counterexample: a concrete world in which the command fails with an
unresolved-`@me` stderr and the username fallback yields the literal `@me`:
the very same command line is spawned twice, so a single failure of the
executed command is not terminal and the main command is not spawned
exactly once. -/
theorem spawn_retry_cex :
    (executeAzCommand wMeRetry meCmd).1 = [versionCmd, accountShowCmd, meCmd, meCmd]
    ∧ (executeAzCommand wMeRetry meCmd).1.count meCmd = 2 := by
  exact ⟨by decide, by decide⟩

/-! ### C3 -/

/-- C3: `getSubscriptionInfo` never raises.  Its result type is a plain
optional value rather than an error channel, and each listed failure mode —
the try-block body throwing any error, the install probe false, the auth
probe false, or the body deciding the result is unusable — yields the
absent result. -/
theorem getSubscriptionInfo_total (w : CliWorld) (s : AuthState)
    (hCache : s.cachedSubscription = none) :
    (∀ tr e, getSubscriptionInfoBody w = (tr, .error e) →
        (getSubscriptionInfo w s).2.2 = none)
    ∧ (isInstalled w = false → (getSubscriptionInfo w s).2.2 = none)
    ∧ (isInstalled w = true → isAuthenticated w = false →
        (getSubscriptionInfo w s).2.2 = none)
    ∧ (∀ tr, getSubscriptionInfoBody w = (tr, .ok none) →
        (getSubscriptionInfo w s).2.2 = none) := by
  refine ⟨fun tr e h => ?_, fun hI => ?_, fun hI hA => ?_, fun tr h => ?_⟩
  · simp [getSubscriptionInfo, hCache, h]
  · have hb : getSubscriptionInfoBody w = ([versionCmd], .ok none) := by
      simp [getSubscriptionInfoBody, hI]
    simp [getSubscriptionInfo, hCache, hb]
  · have hb : getSubscriptionInfoBody w = ([versionCmd, accountShowCmd], .ok none) := by
      simp [getSubscriptionInfoBody, hI, hA]
    simp [getSubscriptionInfo, hCache, hb]
  · simp [getSubscriptionInfo, hCache, h]

/-- C3 witness: with nothing installed and empty caches, the operation
resolves to absent. -/
theorem getSubscriptionInfo_total_witness :
    (getSubscriptionInfo wNotInstalled s0).2.2 = none :=
  (getSubscriptionInfo_total wNotInstalled s0 rfl).2.1 (by decide)

/-! ### C6 -/

/-- C6: when the token command fails, `getToken` re-probes to report the
root cause with fixed priority: install probe false gives `NotInstalled`;
otherwise auth probe false gives `NotAuthenticated`; otherwise a generic
execution error carrying the original stderr (or, absent that, the original
message). -/
theorem getToken_root_cause (w : CliWorld) (e : ExecError)
    (hTok : w.exec getAccessTokenCmd = .error e) :
    (isInstalled w = false → (getAzureDevOpsAccessToken w).2 = .error .notInstalled)
    ∧ (isInstalled w = true → isAuthenticated w = false →
        (getAzureDevOpsAccessToken w).2 = .error .notAuthenticated)
    ∧ (isInstalled w = true → isAuthenticated w = true →
        (getAzureDevOpsAccessToken w).2 =
          .error (.cliExecution "Failed to get access token"
            (jsOr (optStr e.stderr) e.message) none)) := by
  refine ⟨fun hI => ?_, fun hI hA => ?_, fun hI hA => ?_⟩
  · simp [getAzureDevOpsAccessToken, hTok, hI]
  · simp [getAzureDevOpsAccessToken, hTok, hI, hA]
  · simp [getAzureDevOpsAccessToken, hTok, hI, hA]

/-- C6 witness: the token command throws and the install probe is false, so
the final error is `NotInstalled`, not the raw token-command error. -/
theorem getToken_root_cause_witness :
    (getAzureDevOpsAccessToken wNotInstalled).2 = .error .notInstalled :=
  (getToken_root_cause wNotInstalled ⟨"command not found: az", none, some 127⟩ rfl).1
    (by decide)

/-! ### C7 -/

/-- C7: for every structured result of the account-show command, the
subscription body maps it through `mapSubscription`; a result lacking both
the identifier and the name yields absent, and on success the identifier
and name are string-coerced, `tenantId` is the primary field when truthy
and otherwise falls back to `homeTenantId` (then to the empty string), and
`state` defaults to the literal "Unknown" when absent. -/
theorem subscription_field_mapping (w : CliWorld) (result : JSValue)
    (hInst : isInstalled w = true) (hAuth : isAuthenticated w = true) :
    (∀ tr, executeAzCommand w accountShowJsonCmd = (tr, .ok result) →
        (getSubscriptionInfoBody w).2 = .ok (mapSubscription result))
    ∧ (truthy (getField result "id") = false ∧ truthy (getField result "name") = false →
        mapSubscription result = none)
    ∧ (∀ info, mapSubscription result = some info →
        info.id = jsToString (getField result "id")
        ∧ info.name = jsToString (getField result "name")
        ∧ info.state = jsToString (jsOrV (getField result "state") (.str "Unknown"))
        ∧ (truthy (getField result "state") = false → info.state = "Unknown")
        ∧ (truthy (getField result "tenantId") = true →
            info.tenantId = jsToString (getField result "tenantId"))
        ∧ (truthy (getField result "tenantId") = false →
            info.tenantId = jsToString (jsOrV (getField result "homeTenantId") (.str "")))) := by
  refine ⟨fun tr h => ?_, fun hmiss => ?_, fun info h => ?_⟩
  · simp [getSubscriptionInfoBody, hInst, hAuth, h]
  · simp [mapSubscription, hmiss.1, hmiss.2]
  · simp only [mapSubscription] at h
    split at h
    · cases h
    · split at h
      · cases h
      · cases h
        refine ⟨rfl, rfl, rfl, fun hstate => ?_, fun htid => ?_, fun htid => ?_⟩
        · simp [jsOrV, hstate, jsToString]
        · simp [jsOrV, htid]
        · simp [jsOrV, htid]

/-- C7 witness: the good world returns a result with an identifier and a
name but only the alternate tenant field; the body maps it and the fallback
and defaulting fire as stated. -/
theorem subscription_field_mapping_witness :
    (getSubscriptionInfoBody wGood).2 = .ok (mapSubscription acctResult)
    ∧ mapSubscription acctResult = some ⟨"sub-1", "My Sub", "ten-9", "Enabled"⟩ := by
  refine ⟨?_, by decide⟩
  exact (subscription_field_mapping wGood acctResult (by decide) (by decide)).1
    [versionCmd, accountShowCmd, accountShowJsonCmd] rfl

/-! ### C8 -/

/-- C8: on a successful execution whose stderr triggers no typed error, the
run returns the JSON parse of stdout, and an empty or whitespace-only
stdout yields the empty object rather than a parse error. -/
theorem run_parses_stdout (w : CliWorld) (command : String) (r : ExecSuccess)
    (hInst : isInstalled w = true) (hAuth : isAuthenticated w = true)
    (hExt : isDevOpsCommand command = true → hasDevOpsExtension w = true)
    (hExec : w.exec command = .ok r)
    (hClean : handleStderrErrors r.stderr = none) :
    (∀ v, parseJsonResponse w r.stdout = .ok v → (executeAzCommand w command).2 = .ok v)
    ∧ (jsTrim r.stdout = "" → (executeAzCommand w command).2 = .ok (.obj []))
    ∧ (∀ out : String, jsTrim out = "" → parseJsonResponse w out = .ok (.obj [])) := by
  have hBlank : ∀ out : String, jsTrim out = "" → parseJsonResponse w out = .ok (.obj []) := by
    intro out hout
    simp [parseJsonResponse, hout]
  have hAtt : runAttempt w command = parseJsonResponse w r.stdout := by
    simp [runAttempt, hExec, hClean]
  have hMain : ∀ v, parseJsonResponse w r.stdout = .ok v →
      (executeAzCommand w command).2 = .ok v := by
    intro v hv
    rw [executeAzCommand_validated w command hInst hAuth hExt,
      core_of_ok w command v (hAtt.trans hv)]
  exact ⟨hMain, fun hout => hMain (.obj []) (hBlank r.stdout hout), hBlank⟩

/-- C8 witness: a command that resolves with whitespace-only stdout and
clean stderr returns the empty object. -/
theorem run_parses_stdout_witness :
    (executeAzCommand wBlankStdout orgCmd).2 = .ok (.obj []) :=
  (run_parses_stdout wBlankStdout orgCmd ⟨"   \n  ", ""⟩ (by decide) (by decide)
    (by decide) rfl (by decide)).2.1 (by decide)

/-! ### C4 -/

/-- Remove one variable from an environment. -/
def dropVar (env : String → Option String) (name : String) : String → Option String :=
  fun n => if n = name then none else env n

theorem getEnvVar_of_nonblank (env : String → Option String) (name v : String)
    (hv : env name = some v) (ht : jsTrim v ≠ "") :
    getEnvVar env name = some (jsTrim v) := by
  have hv0 : v ≠ "" := by
    intro h0
    apply ht
    rw [h0]
    rfl
  simp [getEnvVar, hv, hv0, ht]

theorem getEnvVar_of_blank (env : String → Option String) (name v : String)
    (hv : env name = some v) (ht : jsTrim v = "") :
    getEnvVar env name = none := by
  by_cases hv0 : v = ""
  · simp [getEnvVar, hv, hv0]
  · simp [getEnvVar, hv, hv0, ht]

/-- C4: credential sources are resolved primary env var, then secondary env
var, then external program; a blank or whitespace-only env value is treated
exactly like an absent one; and a non-blank primary value is trimmed,
cached and returned with zero spawned processes. -/
theorem token_source_priority (w : CliWorld) (env : String → Option String)
    (s : AuthState) :
    (∀ v, env patEnvVar = some v → jsTrim v ≠ "" → tokenCacheHit s = false →
        getAccessToken w env s
          = ([], ⟨some (jsTrim v), s.cachedSubscription⟩, .ok (jsTrim v)))
    ∧ (∀ v, env patEnvVar = some v → jsTrim v = "" →
        getAccessToken w env s = getAccessToken w (dropVar env patEnvVar) s)
    ∧ (∀ v, getEnvVar env patEnvVar = none → env tokenEnvVar = some v → jsTrim v = "" →
        getAccessToken w env s = getAccessToken w (dropVar env tokenEnvVar) s)
    ∧ (∀ v, tokenCacheHit s = false → getEnvVar env patEnvVar = none →
        env tokenEnvVar = some v → jsTrim v ≠ "" →
        getAccessToken w env s
          = ([], ⟨some (jsTrim v), s.cachedSubscription⟩, .ok (jsTrim v))) := by
  refine ⟨fun v hv ht hmiss => ?_, fun v hv ht => ?_, fun v hp hv ht => ?_,
    fun v hmiss hp hv ht => ?_⟩
  · have hp := getEnvVar_of_nonblank env patEnvVar v hv ht
    simp [getAccessToken, hmiss, hp]
  · have h1 : getEnvVar env patEnvVar = none := getEnvVar_of_blank env patEnvVar v hv ht
    have h2 : getEnvVar (dropVar env patEnvVar) patEnvVar = none := by
      have hd : dropVar env patEnvVar patEnvVar = none := if_pos rfl
      simp [getEnvVar, hd]
    have h3 : getEnvVar (dropVar env patEnvVar) tokenEnvVar = getEnvVar env tokenEnvVar := by
      have hd : dropVar env patEnvVar tokenEnvVar = env tokenEnvVar := if_neg (by decide)
      unfold getEnvVar
      rw [hd]
    simp only [getAccessToken, h1, h2, h3]
  · have h2 : getEnvVar (dropVar env tokenEnvVar) patEnvVar = getEnvVar env patEnvVar := by
      have hd : dropVar env tokenEnvVar patEnvVar = env patEnvVar := if_neg (by decide)
      unfold getEnvVar
      rw [hd]
    have h1 : getEnvVar env tokenEnvVar = none := getEnvVar_of_blank env tokenEnvVar v hv ht
    have h4 : getEnvVar (dropVar env tokenEnvVar) tokenEnvVar = none := by
      have hd : dropVar env tokenEnvVar tokenEnvVar = none := if_pos rfl
      simp [getEnvVar, hd]
    simp only [getAccessToken, h1, h2, h4, hp]
  · have hs := getEnvVar_of_nonblank env tokenEnvVar v hv ht
    simp [getAccessToken, hmiss, hp, hs]

/-- C4 witness: a padded primary env value resolves to its trimmed text
with an empty spawn trace. -/
theorem token_source_priority_witness :
    getAccessToken wTokenFail envPat s0 = ([], ⟨some "secret-token", none⟩, .ok "secret-token") := by
  have h := (token_source_priority wTokenFail envPat s0).1 "  secret-token  "
    rfl (by decide) rfl
  simpa using h

/-! ### C5 -/

/-- C5: the credential cache follows Empty to Resolved to Empty.  With both
env vars absent and a working external program, the first call spawns the
token command once and caches the trimmed token, the second call returns
the same token with no spawn at all, and after `clearCache` (which empties
both slots) the next call spawns the token command again. -/
theorem cache_lifecycle (w : CliWorld) (env : String → Option String) (r : ExecSuccess)
    (hPat : getEnvVar env patEnvVar = none)
    (hTok : getEnvVar env tokenEnvVar = none)
    (hExec : w.exec getAccessTokenCmd = .ok r)
    (hWork : jsTrim (jsTrim r.stdout) ≠ "") :
    getAccessToken w env s0
      = ([getAccessTokenCmd], ⟨some (jsTrim (jsTrim r.stdout)), none⟩,
          .ok (jsTrim (jsTrim r.stdout)))
    ∧ getAccessToken w env ⟨some (jsTrim (jsTrim r.stdout)), none⟩
      = ([], ⟨some (jsTrim (jsTrim r.stdout)), none⟩, .ok (jsTrim (jsTrim r.stdout)))
    ∧ clearCache ⟨some (jsTrim (jsTrim r.stdout)), none⟩ = s0
    ∧ (getAccessToken w env (clearCache ⟨some (jsTrim (jsTrim r.stdout)), none⟩)).1
        = [getAccessTokenCmd] := by
  have hTokRun : getAzureDevOpsAccessToken w = ([getAccessTokenCmd], .ok (jsTrim r.stdout)) := by
    simp [getAzureDevOpsAccessToken, hExec]
  have hBlank : ¬(jsTrim r.stdout = "" ∨ jsTrim (jsTrim r.stdout) = "") := by
    rintro (h0 | h0)
    · apply hWork
      rw [h0]
      rfl
    · exact hWork h0
  have h1 : getAccessToken w env s0
      = ([getAccessTokenCmd], ⟨some (jsTrim (jsTrim r.stdout)), none⟩,
          .ok (jsTrim (jsTrim r.stdout))) := by
    simp [getAccessToken, tokenCacheHit, s0, hPat, hTok, hTokRun, hBlank]
  refine ⟨h1, ?_, rfl, ?_⟩
  · have hhit : tokenCacheHit ⟨some (jsTrim (jsTrim r.stdout)), none⟩ = true := by
      simp [tokenCacheHit, hWork]
    simp [getAccessToken, hhit, optStr]
  · rw [show clearCache ⟨some (jsTrim (jsTrim r.stdout)), none⟩ = s0 from rfl, h1]

/-- C5 witness: in the good world with an empty environment, the token is
resolved once, served from cache on the second call, and re-resolved after
a cache clear. -/
theorem cache_lifecycle_witness :
    getAccessToken wGood envEmpty s0
      = ([getAccessTokenCmd], ⟨some "tok123", none⟩, .ok "tok123")
    ∧ getAccessToken wGood envEmpty ⟨some "tok123", none⟩
      = ([], ⟨some "tok123", none⟩, .ok "tok123") := by
  have h := cache_lifecycle wGood envEmpty ⟨"  tok123  ", ""⟩ rfl rfl rfl (by decide)
  exact ⟨h.1, h.2.1⟩

/-! ### C9 -/

/-- Every error `getAccessToken` throws carries the one fixed message. -/
theorem getAccessToken_error_message (w : CliWorld) (env : String → Option String)
    (s : AuthState) (err : TokenResolutionError)
    (h : (getAccessToken w env s).2.2 = .error err) :
    err.message = tokenFailureMessage := by
  unfold getAccessToken at h
  by_cases hc : tokenCacheHit s = true
  · rw [if_pos hc] at h
    simp at h
  · rw [if_neg hc] at h
    cases hp : getEnvVar env patEnvVar with
    | some pat => rw [hp] at h; simp at h
    | none =>
      rw [hp] at h
      cases ht : getEnvVar env tokenEnvVar with
      | some et => rw [ht] at h; simp at h
      | none =>
        rw [ht] at h
        cases hg : getAzureDevOpsAccessToken w with
        | mk tr res =>
          rw [hg] at h
          cases res with
          | ok token =>
            by_cases hb : token = "" ∨ jsTrim token = ""
            · simp only [if_pos hb] at h
              simp only [Except.error.injEq] at h
              rw [← h]
            · simp [if_neg hb] at h
          | error e =>
            simp only [Except.error.injEq] at h
            rw [← h]

/-- C9: when token resolution fails, the raised error carries the fixed
descriptive message naming both env var options and the login instruction,
its `cause` is the original underlying error (the CLI error, or the local
empty-token error when the external program returned a blank token), and
the message is independent of any attempted token value: any two failing
runs produce identical messages. -/
theorem token_failure_error_shape (w : CliWorld) (env : String → Option String)
    (s : AuthState) (err : TokenResolutionError)
    (hmiss : tokenCacheHit s = false)
    (hp : getEnvVar env patEnvVar = none)
    (ht : getEnvVar env tokenEnvVar = none)
    (h : (getAccessToken w env s).2.2 = .error err) :
    err.message = tokenFailureMessage
    ∧ jsIncludes err.message patEnvVar = true
    ∧ jsIncludes err.message tokenEnvVar = true
    ∧ jsIncludes err.message "Azure CLI login" = true
    ∧ (∀ e, (getAzureDevOpsAccessToken w).2 = .error e → err.cause = .cli e)
    ∧ (∀ tok, (getAzureDevOpsAccessToken w).2 = .ok tok → err.cause = .emptyToken)
    ∧ (∀ w2 env2 s2 err2, (getAccessToken w2 env2 s2).2.2 = .error err2 →
        err2.message = err.message) := by
  have hmsg := getAccessToken_error_message w env s err h
  refine ⟨hmsg, by rw [hmsg]; decide, by rw [hmsg]; decide, by rw [hmsg]; decide,
    ?_, ?_, fun w2 env2 s2 err2 h2 =>
      (getAccessToken_error_message w2 env2 s2 err2 h2).trans hmsg.symm⟩
  all_goals
    unfold getAccessToken at h
    rw [if_neg (by rw [hmiss]; exact Bool.false_ne_true), hp, ht] at h
  · intro e he
    cases hg : getAzureDevOpsAccessToken w with
    | mk tr res =>
      rw [hg] at h he
      cases res with
      | ok token =>
        simp at he
      | error e2 =>
        simp only at he
        cases he
        simp only [Except.error.injEq] at h
        rw [← h]
  · intro tok htok
    cases hg : getAzureDevOpsAccessToken w with
    | mk tr res =>
      rw [hg] at h htok
      cases res with
      | ok token =>
        by_cases hb : token = "" ∨ jsTrim token = ""
        · simp only [if_pos hb] at h
          simp only [Except.error.injEq] at h
          rw [← h]
        · simp [if_neg hb] at h
      | error e2 =>
        simp at htok

def tokenErrW : TokenResolutionError :=
  ⟨tokenFailureMessage, .cli (.cliExecution "Failed to get access token" "token stderr" none)⟩

/-- C9 witness: a concrete failing run produces the fixed message with the
CLI error as cause. -/
theorem token_failure_error_shape_witness :
    tokenErrW.message = tokenFailureMessage
    ∧ jsIncludes tokenErrW.message patEnvVar = true :=
  ⟨(token_failure_error_shape wTokenFail envEmpty s0 tokenErrW rfl rfl rfl rfl).1,
   (token_failure_error_shape wTokenFail envEmpty s0 tokenErrW rfl rfl rfl rfl).2.1⟩

/-! ### C10 -/

/-- Every run of `getAccessToken` either leaves the state unchanged (cache
hit or failure) or caches the trimmed, non-blank resolution of some raw
value. -/
theorem getAccessToken_shape (w : CliWorld) (env : String → Option String) (s : AuthState) :
    ((getAccessToken w env s).2.1 = s
      ∧ ((getAccessToken w env s).2.2 = .ok (optStr s.cachedToken) ∧ tokenCacheHit s = true
          ∨ ∃ err, (getAccessToken w env s).2.2 = .error err))
    ∨ (∃ v, jsTrim v ≠ ""
        ∧ (getAccessToken w env s).2.1 = ⟨some (jsTrim v), s.cachedSubscription⟩
        ∧ (getAccessToken w env s).2.2 = .ok (jsTrim v)) := by
  unfold getAccessToken
  by_cases hc : tokenCacheHit s = true
  · rw [if_pos hc]
    exact Or.inl ⟨rfl, Or.inl ⟨rfl, hc⟩⟩
  · rw [if_neg hc]
    cases hpv : getEnvVar env patEnvVar with
    | some pat =>
      obtain ⟨v, hv, hpat, hne⟩ := getEnvVar_some env patEnvVar pat hpv
      subst hpat
      exact Or.inr ⟨v, hne, rfl, rfl⟩
    | none =>
      cases htv : getEnvVar env tokenEnvVar with
      | some et =>
        obtain ⟨v, hv, hpat, hne⟩ := getEnvVar_some env tokenEnvVar et htv
        subst hpat
        exact Or.inr ⟨v, hne, rfl, rfl⟩
      | none =>
        cases hg : getAzureDevOpsAccessToken w with
        | mk tr res =>
          cases res with
          | ok token =>
            by_cases hb : token = "" ∨ jsTrim token = ""
            · refine Or.inl ⟨?_, Or.inr ⟨⟨tokenFailureMessage, .emptyToken⟩, ?_⟩⟩
              · show (if token = "" ∨ jsTrim token = "" then _ else _ : List String × AuthState × Except TokenResolutionError String).2.1 = s
                rw [if_pos hb]
              · show (if token = "" ∨ jsTrim token = "" then _ else _ : List String × AuthState × Except TokenResolutionError String).2.2 = _
                rw [if_pos hb]
            · refine Or.inr ⟨token, fun h0 => hb (Or.inr h0), ?_, ?_⟩
              · show (if token = "" ∨ jsTrim token = "" then _ else _ : List String × AuthState × Except TokenResolutionError String).2.1 = _
                rw [if_neg hb]
              · show (if token = "" ∨ jsTrim token = "" then _ else _ : List String × AuthState × Except TokenResolutionError String).2.2 = _
                rw [if_neg hb]
          | error e =>
            exact Or.inl ⟨rfl, Or.inr ⟨_, rfl⟩⟩

/-- C10: invariant of the credential resolver: a populated token-cache slot
always holds a non-empty token with no leading or trailing whitespace, this
is preserved by `getAccessToken`, every token it returns has the same
shape, and under the invariant the truthiness-based cache-hit test never
mistakes a populated slot for an empty one. -/
theorem token_cache_invariant (w : CliWorld) (env : String → Option String)
    (s : AuthState) (hInv : tokenCacheInv s) :
    tokenCacheInv (getAccessToken w env s).2.1
    ∧ (∀ t, (getAccessToken w env s).2.2 = .ok t → trimmedToken t)
    ∧ (∀ t, s.cachedToken = some t → tokenCacheHit s = true) := by
  refine ⟨?_, ?_, fun t hsome => ?_⟩
  · rcases getAccessToken_shape w env s with ⟨hstate, _⟩ | ⟨v, hne, hstate, _⟩
    · rw [hstate]
      exact hInv
    · rw [hstate]
      intro t h2
      have h3 : some (jsTrim v) = some t := h2
      cases h3
      exact jsTrim_trimmedToken v hne
  · intro t h2
    rcases getAccessToken_shape w env s with ⟨_, ⟨hok, hhit⟩ | ⟨err, herr⟩⟩ | ⟨v, hne, _, hok⟩
    · rw [hok] at h2
      cases hcc : s.cachedToken with
      | none =>
        unfold tokenCacheHit at hhit
        rw [hcc] at hhit
        cases hhit
      | some u =>
        rw [hcc] at h2
        have h3 : u = t := by
          have h4 : Except.ok (ε := TokenResolutionError) u = Except.ok t := h2
          cases h4
          rfl
        rw [← h3]
        exact hInv u hcc
    · rw [herr] at h2
      cases h2
    · rw [hok] at h2
      have h3 : jsTrim v = t := by
        have h4 : Except.ok (ε := TokenResolutionError) (jsTrim v) = Except.ok t := h2
        cases h4
        rfl
      rw [← h3]
      exact jsTrim_trimmedToken v hne
  · simp [tokenCacheHit, hsome, bne_iff_ne, (hInv t hsome).1]

/-- C10 witness: starting from the empty cache in the good world, the
returned token is non-empty and trimmed. -/
theorem token_cache_invariant_witness : trimmedToken "tok123" :=
  (token_cache_invariant wGood envEmpty s0 (fun t h => nomatch h)).2.1 "tok123" rfl

end AzureCommander
